import Mathlib

/-!
Shallow embedding of the tjudge-cli game referee (Rust) and proofs about it.

Modelling conventions:
* `std::io::Error` is modelled by `TJudge.IoError`: an `ErrorKind` plus a
  structured message (`ErrMsg` models the `format!` payloads exactly, instead
  of rendered strings).
* Player actors (`trait Player { fn ask; fn say }`, src/src/game.rs) are
  modelled by `TJudge.Player σ`: a pair of state transformers over an abstract
  state type `σ`.  A call returns its `Except` result together with the
  post-call state (mirroring `&mut self`: failed calls may still have advanced
  the actor's state).
* `Score` (`pub type Score = i32`) is modelled by `Int`; the payoffs handled by
  the program are small constants, i32 overflow is not modelled.
* `Energy` (`type Energy = u32`) is modelled by `Nat`; the parser only accepts
  values below 2^32 and the only subtraction is guarded by `spent <= energy`,
  so `Nat` arithmetic coincides with `u32` arithmetic on all reachable values.
-/

namespace TJudge

/-- Model of the `std::io::ErrorKind` values this program constructs or can
observe from its reader/writer layer. -/
inductive ErrorKind where
  | invalidInput
  | timedOut
  | notFound
  | otherKind
deriving DecidableEq, Repr

/-- Structured model of the `format!` message payloads attached to the
`io::Error`s this program constructs. -/
inductive ErrMsg where
  | unknownDecision (s : String)
  | unknownAction (s : String)
  | parseIntError (s : String)
  | overspend (spent energy : Nat)
  | sysMsg (s : String)
deriving DecidableEq, Repr

/-- Model of `std::io::Error` as constructed via `io::Error::new(kind, msg)`. -/
structure IoError where
  kind : ErrorKind
  msg : ErrMsg
deriving DecidableEq, Repr

/-- `pub type Score = i32` (src/src/game.rs). -/
abbrev Score := Int

/-- `pub enum GameError { ErrorLeft(io::Error), ErrorRight(io::Error) }`
(src/src/game.rs). -/
inductive GameError where
  | errorLeft (e : IoError)
  | errorRight (e : IoError)
deriving DecidableEq, Repr

/-- Model of `trait Player` (src/src/game.rs): `ask`/`say` act on the actor's
state and return the post-call state alongside the result. -/
structure Player (σ : Type) where
  ask : σ → Except IoError String × σ
  say : σ → String → Except IoError Unit × σ

namespace Dilemma

/-- `enum Decision { Cooperate, Defect }` (src/src/games/dilemma.rs). -/
inductive Decision where
  | cooperate
  | defect
deriving DecidableEq, Repr

/-- `Decision::from_str` (src/src/games/dilemma.rs, lines 123-135). -/
def Decision.fromStr (s : String) : Except IoError Decision :=
  if s = "COOPERATE" then .ok .cooperate
  else if s = "DEFECT" then .ok .defect
  else .error ⟨.invalidInput, .unknownDecision s⟩

/-- `Decision::to_str` (src/src/games/dilemma.rs). -/
def Decision.toStr : Decision → String
  | .cooperate => "COOPERATE"
  | .defect => "DEFECT"

/-- `struct PrisonerDilemma` (src/src/games/dilemma.rs). -/
structure PrisonerDilemma where
  both_defects : Score
  betrayer_reward : Score
  both_cooperate : Score

/-- `GameMediator::initial` (src/src/games/dilemma.rs): sends the iteration
count (`format!("{}", iters)` is decimal `Nat.repr`). -/
def mediatorInitial {σ : Type} (p : Player σ) (iters : Nat) (s : σ) :
    Except IoError Unit × σ :=
  p.say s (Nat.repr iters)

/-- `GameMediator::decision` (src/src/games/dilemma.rs): `ask` then parse. -/
def mediatorDecision {σ : Type} (p : Player σ) (s : σ) :
    Except IoError Decision × σ :=
  match p.ask s with
  | (.ok line, s') => (Decision.fromStr line, s')
  | (.error e, s') => (.error e, s')

/-- `GameMediator::notify` (src/src/games/dilemma.rs). -/
def mediatorNotify {σ : Type} (p : Player σ) (d : Decision) (s : σ) :
    Except IoError Unit × σ :=
  p.say s d.toStr

/-- `PrisonerDilemma::iteration` (src/src/games/dilemma.rs, lines 68-90):
both decisions, both notifications, then the payoff matrix. -/
def PrisonerDilemma.iteration {σ τ : Type} (g : PrisonerDilemma)
    (pl : Player σ) (pr : Player τ) (sl : σ) (sr : τ) :
    Except GameError (Score × Score) × σ × τ :=
  match mediatorDecision pl sl with
  | (.error e, sl') => (.error (.errorLeft e), sl', sr)
  | (.ok dl, sl') =>
    match mediatorDecision pr sr with
    | (.error e, sr') => (.error (.errorRight e), sl', sr')
    | (.ok dr, sr') =>
      match mediatorNotify pl dr sl' with
      | (.error e, sl2) => (.error (.errorLeft e), sl2, sr')
      | (.ok _, sl2) =>
        match mediatorNotify pr dl sr' with
        | (.error e, sr2) => (.error (.errorRight e), sl2, sr2)
        | (.ok _, sr2) =>
          (.ok (match dl, dr with
                | .cooperate, .cooperate => (g.both_cooperate, g.both_cooperate)
                | .cooperate, .defect => (0, g.betrayer_reward)
                | .defect, .cooperate => (g.betrayer_reward, 0)
                | .defect, .defect => (g.both_defects, g.both_defects)),
           sl2, sr2)

/-- The `for _ in 0..iters` accumulation loop of `PrisonerDilemma::round`
(src/src/games/dilemma.rs, lines 39-46). -/
def PrisonerDilemma.roundLoop {σ τ : Type} (g : PrisonerDilemma)
    (pl : Player σ) (pr : Player τ) :
    Nat → Score × Score → σ → τ → Except GameError (Score × Score) × σ × τ
  | 0, acc, sl, sr => (.ok acc, sl, sr)
  | n + 1, acc, sl, sr =>
    match g.iteration pl pr sl sr with
    | (.error e, sl', sr') => (.error e, sl', sr')
    | (.ok res, sl', sr') =>
      g.roundLoop pl pr n (acc.1 + res.1, acc.2 + res.2) sl' sr'

/-- `PrisonerDilemma::round` (src/src/games/dilemma.rs, lines 25-50). -/
def PrisonerDilemma.round {σ τ : Type} (g : PrisonerDilemma)
    (pl : Player σ) (pr : Player τ) (iters : Nat) (sl : σ) (sr : τ) :
    Except GameError (Score × Score) × σ × τ :=
  match mediatorInitial pl iters sl with
  | (.error e, sl') => (.error (.errorLeft e), sl', sr)
  | (.ok _, sl') =>
    match mediatorInitial pr iters sr with
    | (.error e, sr') => (.error (.errorRight e), sl', sr')
    | (.ok _, sr') => g.roundLoop pl pr iters (0, 0) sl' sr'

end Dilemma

namespace Tug

/-- `type Energy = u32` (src/src/games/tug_of_war.rs). -/
abbrev Energy := Nat

/-- Value of a list of decimal digit characters, most significant first. -/
def digitsVal (cs : List Char) : Nat :=
  cs.foldl (fun a c => 10 * a + (c.toNat - 48)) 0

/-- Model of Rust `str::parse::<u32>()`: an optional leading `+`, then one or
more ASCII digits, value within the `u32` range; anything else is rejected. -/
def parseU32 (s : String) : Option Nat :=
  let body := match s.data with
    | '+' :: rest => rest
    | cs => cs
  if body ≠ [] ∧ body.all (fun c => c.isDigit) ∧ digitsVal body < 2 ^ 32 then
    some (digitsVal body)
  else none

/-- `struct TugOfWar { energy: Energy }` (src/src/games/tug_of_war.rs). -/
structure TugOfWar where
  energy : Energy

/-- `GameMediator::initial` (src/src/games/tug_of_war.rs, lines 94-97): send
the starting energy, then the iteration count, as two separate lines. -/
def mediatorInitial {σ : Type} (p : Player σ) (energy : Energy) (iters : Nat)
    (s : σ) : Except IoError Unit × σ :=
  match p.say s (Nat.repr energy) with
  | (.error e, s') => (.error e, s')
  | (.ok _, s') => p.say s' (Nat.repr iters)

/-- `GameMediator::pull` (src/src/games/tug_of_war.rs, lines 99-115): `ask`,
parse as `u32`, reject overspending, then decrement the mediator's energy. -/
def mediatorPull {σ : Type} (p : Player σ) (s : σ) (energy : Energy) :
    Except IoError Energy × σ × Energy :=
  match p.ask s with
  | (.error e, s') => (.error e, s', energy)
  | (.ok line, s') =>
    match parseU32 line with
    | none => (.error ⟨.invalidInput, .parseIntError line⟩, s', energy)
    | some spent =>
      if spent > energy then
        (.error ⟨.invalidInput, .overspend spent energy⟩, s', energy)
      else
        (.ok spent, s', energy - spent)

/-- `GameMediator::notify` (src/src/games/tug_of_war.rs, lines 117-119). -/
def mediatorNotify {σ : Type} (p : Player σ) (another_spent : Energy) (s : σ) :
    Except IoError Unit × σ :=
  p.say s (Nat.repr another_spent)

/-- `TugOfWar::iteration` (src/src/games/tug_of_war.rs, lines 61-79): both
pulls, both notifications, then compare the spent amounts.  A mediator's state
is its actor state paired with its remaining energy. -/
def TugOfWar.iteration {σ τ : Type} (_g : TugOfWar)
    (pl : Player σ) (pr : Player τ) (sl : σ × Energy) (sr : τ × Energy) :
    Except GameError (Score × Score) × (σ × Energy) × (τ × Energy) :=
  match mediatorPull pl sl.1 sl.2 with
  | (.error e, s', e') => (.error (.errorLeft e), (s', e'), sr)
  | (.ok lSpent, sl1, el1) =>
    match mediatorPull pr sr.1 sr.2 with
    | (.error e, s', e') => (.error (.errorRight e), (sl1, el1), (s', e'))
    | (.ok rSpent, sr1, er1) =>
      match mediatorNotify pl rSpent sl1 with
      | (.error e, sl2) => (.error (.errorLeft e), (sl2, el1), (sr1, er1))
      | (.ok _, sl2) =>
        match mediatorNotify pr lSpent sr1 with
        | (.error e, sr2) => (.error (.errorRight e), (sl2, el1), (sr2, er1))
        | (.ok _, sr2) =>
          (.ok (if lSpent < rSpent then (0, 1)
                else if rSpent < lSpent then (1, 0)
                else (0, 0)),
           (sl2, el1), (sr2, er1))

/-- The `for _ in 0..iters` accumulation loop of `TugOfWar::round`
(src/src/games/tug_of_war.rs, lines 37-44). -/
def TugOfWar.roundLoop {σ τ : Type} (g : TugOfWar)
    (pl : Player σ) (pr : Player τ) :
    Nat → Score × Score → σ × Energy → τ × Energy →
      Except GameError (Score × Score) × (σ × Energy) × (τ × Energy)
  | 0, acc, sl, sr => (.ok acc, sl, sr)
  | n + 1, acc, sl, sr =>
    match g.iteration pl pr sl sr with
    | (.error e, sl', sr') => (.error e, sl', sr')
    | (.ok res, sl', sr') =>
      g.roundLoop pl pr n (acc.1 + res.1, acc.2 + res.2) sl' sr'

/-- `TugOfWar::round` (src/src/games/tug_of_war.rs, lines 23-48): both
mediators start with `self.energy`. -/
def TugOfWar.round {σ τ : Type} (g : TugOfWar)
    (pl : Player σ) (pr : Player τ) (iters : Nat) (sl : σ) (sr : τ) :
    Except GameError (Score × Score) × (σ × Energy) × (τ × Energy) :=
  match mediatorInitial pl g.energy iters sl with
  | (.error e, sl') => (.error (.errorLeft e), (sl', g.energy), (sr, g.energy))
  | (.ok _, sl') =>
    match mediatorInitial pr g.energy iters sr with
    | (.error e, sr') =>
      (.error (.errorRight e), (sl', g.energy), (sr', g.energy))
    | (.ok _, sr') => g.roundLoop pl pr iters (0, 0) (sl', g.energy) (sr', g.energy)

end Tug

namespace DilemmaA

/-- `enum Action { Cooperate, Betray }` (src/src/dilemma.rs). -/
inductive Action where
  | cooperate
  | betray
deriving DecidableEq, Repr

/-- `Action::from_str` (src/src/dilemma.rs, lines 106-115): note the defect
literal is `BETRAY` here, not `DEFECT`. -/
def Action.fromStr (s : String) : Except IoError Action :=
  if s = "COOPERATE" then .ok .cooperate
  else if s = "BETRAY" then .ok .betray
  else .error ⟨.invalidInput, .unknownAction s⟩

/-- `Action::to_str` (src/src/dilemma.rs, lines 117-122). -/
def Action.toStr : Action → String
  | .cooperate => "COOPERATE"
  | .betray => "BETRAY"

/-- `struct PrisonerDilemma` (src/src/dilemma.rs, generic variant). -/
structure PrisonerDilemma where
  mutual_defects : Score
  defect : Score
  cooperate : Score

/-- `PrisonerDilemma::iteration` (src/src/dilemma.rs, lines 61-97): same call
sequence as the dyn-dispatch variant, without the mediator wrapper. -/
def PrisonerDilemma.iteration {σ τ : Type} (g : PrisonerDilemma)
    (pl : Player σ) (pr : Player τ) (sl : σ) (sr : τ) :
    Except GameError (Score × Score) × σ × τ :=
  match (match pl.ask sl with
         | (.ok line, s') => (Action.fromStr line, s')
         | (.error e, s') => (.error e, s')) with
  | (.error e, sl') => (.error (.errorLeft e), sl', sr)
  | (.ok la, sl') =>
    match (match pr.ask sr with
           | (.ok line, s') => (Action.fromStr line, s')
           | (.error e, s') => (.error e, s')) with
    | (.error e, sr') => (.error (.errorRight e), sl', sr')
    | (.ok ra, sr') =>
      match pl.say sl' ra.toStr with
      | (.error e, sl2) => (.error (.errorLeft e), sl2, sr')
      | (.ok _, sl2) =>
        match pr.say sr' la.toStr with
        | (.error e, sr2) => (.error (.errorRight e), sl2, sr2)
        | (.ok _, sr2) =>
          (.ok (match la, ra with
                | .cooperate, .cooperate => (g.cooperate, g.cooperate)
                | .cooperate, .betray => (0, g.defect)
                | .betray, .cooperate => (g.defect, 0)
                | .betray, .betray => (g.mutual_defects, g.mutual_defects)),
           sl2, sr2)

/-- The `for _ in 0..iters` accumulation loop of the generic
`PrisonerDilemma::round` (src/src/dilemma.rs, lines 39-44). -/
def PrisonerDilemma.roundLoop {σ τ : Type} (g : PrisonerDilemma)
    (pl : Player σ) (pr : Player τ) :
    Nat → Score × Score → σ → τ → Except GameError (Score × Score) × σ × τ
  | 0, acc, sl, sr => (.ok acc, sl, sr)
  | n + 1, acc, sl, sr =>
    match g.iteration pl pr sl sr with
    | (.error e, sl', sr') => (.error e, sl', sr')
    | (.ok res, sl', sr') =>
      g.roundLoop pl pr n (acc.1 + res.1, acc.2 + res.2) sl' sr'

/-- Generic `PrisonerDilemma::round` (src/src/dilemma.rs, lines 23-47). -/
def PrisonerDilemma.round {σ τ : Type} (g : PrisonerDilemma)
    (pl : Player σ) (pr : Player τ) (iters : Nat) (sl : σ) (sr : τ) :
    Except GameError (Score × Score) × σ × τ :=
  match pl.say sl (Nat.repr iters) with
  | (.error e, sl') => (.error (.errorLeft e), sl', sr)
  | (.ok _, sl') =>
    match pr.say sr (Nat.repr iters) with
    | (.error e, sr') => (.error (.errorRight e), sl', sr')
    | (.ok _, sr') => g.roundLoop pl pr iters (0, 0) sl' sr'

end DilemmaA

namespace Channel

/-- What the child's output stream does after its buffered characters run out:
either the pipe is closed (`eof`) or no further data arrives within the read
timeout (`silent`). -/
inductive StreamEnd where
  | eof
  | silent
deriving DecidableEq, Repr

/-- Model of a child process's output stream as seen by the referee within one
`ask` call: the characters available before the next blocking point, and what
happens at that point. -/
structure OutStream where
  buf : List Char
  rest : StreamEnd
deriving DecidableEq, Repr

/-- Split the first newline-terminated line (newline included) off a character
buffer; `none` when the buffer holds no newline. -/
def splitLine : List Char → Option (List Char × List Char)
  | [] => none
  | c :: cs =>
    if c = '\n' then some ([c], cs)
    else
      match splitLine cs with
      | some (l, r) => some (c :: l, r)
      | none => none

/-- Model of `BufRead::read_line` over a `TimeoutReader`
(src/src/subprocess_player.rs, lines 50-55): read until a newline is found; at
end-of-stream return what was read so far (`Ok`); if the child stays silent,
the read times out with `ErrorKind::TimedOut` and the characters consumed so
far are lost (they were moved into the local `line` that the error discards). -/
def readLine (st : OutStream) : Except IoError (List Char) × OutStream :=
  match splitLine st.buf with
  | some (l, r) => (.ok l, ⟨r, st.rest⟩)
  | none =>
    match st.rest with
    | .eof => (.ok st.buf, ⟨[], .eof⟩)
    | .silent => (.error ⟨.timedOut, .sysMsg "timed out"⟩, ⟨[], .silent⟩)

/-- Rust `char::is_whitespace`: the Unicode `White_Space` property. -/
def rustIsWhitespace (c : Char) : Bool :=
  c.toNat = 0x09 || c.toNat = 0x0A || c.toNat = 0x0B || c.toNat = 0x0C ||
  c.toNat = 0x0D || c.toNat = 0x20 || c.toNat = 0x85 || c.toNat = 0xA0 ||
  c.toNat = 0x1680 || (0x2000 ≤ c.toNat && c.toNat ≤ 0x200A) ||
  c.toNat = 0x2028 || c.toNat = 0x2029 || c.toNat = 0x202F ||
  c.toNat = 0x205F || c.toNat = 0x3000

/-- Rust `str::trim_end`: drop every trailing whitespace character. -/
def rustTrimEnd (cs : List Char) : List Char :=
  (cs.reverse.dropWhile rustIsWhitespace).reverse

/-- `SubprocessPlayer::ask` (src/src/subprocess_player.rs, lines 50-55):
`read_line` then `line.trim_end().to_string()` on success.  `ProgramPlayer::ask`
(src/src/program_player.rs, lines 34-39) is the same code. -/
def ask (st : OutStream) : Except IoError String × OutStream :=
  match readLine st with
  | (.ok l, st') => (.ok (rustTrimEnd l).asString, st')
  | (.error e, st') => (.error e, st')

end Channel

/-- Componentwise sum of a list of per-iteration score pairs. -/
def sumScores (l : List (Score × Score)) : Score × Score :=
  l.foldr (fun a b => (a.1 + b.1, a.2 + b.2)) (0, 0)

namespace Dilemma

/-- The list of per-iteration score pairs produced by running
`PrisonerDilemma::iteration` the given number of times (same calls, same
threading of actor state as `roundLoop`, but keeping each iteration's score
instead of accumulating). -/
def PrisonerDilemma.iterScores {σ τ : Type} (g : PrisonerDilemma)
    (pl : Player σ) (pr : Player τ) :
    Nat → σ → τ → Except GameError (List (Score × Score)) × σ × τ
  | 0, sl, sr => (.ok [], sl, sr)
  | n + 1, sl, sr =>
    match g.iteration pl pr sl sr with
    | (.error e, sl', sr') => (.error e, sl', sr')
    | (.ok res, sl', sr') =>
      match g.iterScores pl pr n sl' sr' with
      | (.ok l, sl2, sr2) => (.ok (res :: l), sl2, sr2)
      | (.error e, sl2, sr2) => (.error e, sl2, sr2)

end Dilemma

namespace Tug

/-- The list of per-iteration score pairs produced by running
`TugOfWar::iteration` the given number of times. -/
def TugOfWar.iterScores {σ τ : Type} (g : TugOfWar)
    (pl : Player σ) (pr : Player τ) :
    Nat → σ × Energy → τ × Energy →
      Except GameError (List (Score × Score)) × (σ × Energy) × (τ × Energy)
  | 0, sl, sr => (.ok [], sl, sr)
  | n + 1, sl, sr =>
    match g.iteration pl pr sl sr with
    | (.error e, sl', sr') => (.error e, sl', sr')
    | (.ok res, sl', sr') =>
      match g.iterScores pl pr n sl' sr' with
      | (.ok l, sl2, sr2) => (.ok (res :: l), sl2, sr2)
      | (.error e, sl2, sr2) => (.error e, sl2, sr2)

end Tug

/-- The involution that swaps the two defect literals of the two observed
Prisoner's Dilemma variants (`DEFECT` in src/src/games/dilemma.rs versus
`BETRAY` in src/src/dilemma.rs) and fixes every other line. -/
def renameLit (s : String) : String :=
  if s = "DEFECT" then "BETRAY" else if s = "BETRAY" then "DEFECT" else s

/-- An actor composed with the `renameLit` translation on both directions of
its line protocol. -/
def renamePlayer {σ : Type} (p : Player σ) : Player σ where
  ask s :=
    match p.ask s with
    | (.ok l, s') => (.ok (renameLit l), s')
    | (.error e, s') => (.error e, s')
  say s m := p.say s (renameLit m)

/-- Outcome comparison used for the variant-equivalence statement: equal
scores on success, same attributed side and same error kind on failure (the
two variants render different human-readable messages for the same parse
failure). -/
def sameOutcome :
    Except GameError (Score × Score) → Except GameError (Score × Score) → Prop
  | .ok a, .ok b => a = b
  | .error (.errorLeft e₁), .error (.errorLeft e₂) => e₁.kind = e₂.kind
  | .error (.errorRight e₁), .error (.errorRight e₂) => e₁.kind = e₂.kind
  | _, _ => False

/-- In-memory stand-in actor that always answers `c` and accepts every `say`
(the test-double pattern of the repository's own unit tests). -/
def constPlayer (c : String) : Player Unit where
  ask _ := (.ok c, ())
  say _ _ := (.ok (), ())

/-- In-memory stand-in actor whose `ask` always times out. -/
def silentPlayer : Player Unit where
  ask _ := (.error ⟨.timedOut, .sysMsg "timed out"⟩, ())
  say _ _ := (.ok (), ())

/-- The correspondence between the dyn-dispatch variant's `Decision` and the
generic variant's `Action` (cooperate ↔ cooperate, defect ↔ betray). -/
def actionOf : Dilemma.Decision → DilemmaA.Action
  | .cooperate => .cooperate
  | .defect => .betray

/-- Every character produced by `Nat.digitChar` below base 10 is a decimal
digit. -/
lemma digitChar_isDigit {m : Nat} (h : m < 10) :
    (Nat.digitChar m).isDigit = true := by
  interval_cases m <;> decide

/-- Characters appended by `Nat.toDigitsCore 10` are decimal digits. -/
lemma toDigitsCore_digits (fuel : Nat) :
    ∀ (n : Nat) (ds : List Char), (∀ c ∈ ds, c.isDigit = true) →
      ∀ c ∈ Nat.toDigitsCore 10 fuel n ds, c.isDigit = true := by
  induction fuel with
  | zero => intro n ds hds c hc; exact hds c hc
  | succ fuel ih =>
    intro n ds hds c hc
    have hcons : ∀ c' ∈ Nat.digitChar (n % 10) :: ds, c'.isDigit = true := by
      intro c' hc'
      rcases List.mem_cons.mp hc' with h | h
      · subst h; exact digitChar_isDigit (Nat.mod_lt _ (by norm_num))
      · exact hds c' h
    simp only [Nat.toDigitsCore] at hc
    split at hc
    · exact hcons c hc
    · exact ih (n / 10) _ hcons c hc

/-- Every character of the decimal representation of a natural number is a
decimal digit. -/
lemma repr_digits (n : Nat) : ∀ c ∈ (Nat.repr n).data, c.isDigit = true := by
  intro c hc
  exact toDigitsCore_digits (n + 1) n [] (by intro c h; cases h) c hc

/-- Decimal representations are never one of the two decision literals, so the
`renameLit` translation fixes every setup line. -/
lemma renameLit_repr (n : Nat) : renameLit (Nat.repr n) = Nat.repr n := by
  have hne : ∀ s : String, s.data.head? = some 'D' ∨ s.data.head? = some 'B' →
      Nat.repr n ≠ s := by
    intro s hs h
    have hdata : (Nat.repr n).data = s.data := congrArg String.data h
    rcases hs with hs | hs
    · have : 'D' ∈ (Nat.repr n).data := by
        rw [hdata]; exact List.mem_of_mem_head? hs
      simpa using repr_digits n 'D' this
    · have : 'B' ∈ (Nat.repr n).data := by
        rw [hdata]; exact List.mem_of_mem_head? hs
      simpa using repr_digits n 'B' this
  unfold renameLit
  rw [if_neg (hne "DEFECT" (Or.inl rfl)), if_neg (hne "BETRAY" (Or.inr rfl))]

/-- C1: for every payoff configuration and every pair of decisions obtained in
a Prisoner's Dilemma iteration, the per-round score pair equals the payoff
matrix: both cooperate gives `(both_cooperate, both_cooperate)`; both defect
gives `(both_defects, both_defects)`; if exactly one side defects, the
defector gets `betrayer_reward` and the cooperator gets `0`
(src/src/games/dilemma.rs, `PrisonerDilemma::iteration`). -/
theorem dilemma_iteration_payoff_matrix {σ τ : Type}
    (g : Dilemma.PrisonerDilemma) (pl : Player σ) (pr : Player τ)
    (sl : σ) (sr : τ) (s1 s2 : String) (dl dr : Dilemma.Decision)
    (sl1 : σ) (sr1 : τ) (u1 u2 : Unit) (sl2 : σ) (sr2 : τ)
    (h1 : pl.ask sl = (.ok s1, sl1))
    (h2 : Dilemma.Decision.fromStr s1 = .ok dl)
    (h3 : pr.ask sr = (.ok s2, sr1))
    (h4 : Dilemma.Decision.fromStr s2 = .ok dr)
    (h5 : pl.say sl1 dr.toStr = (.ok u1, sl2))
    (h6 : pr.say sr1 dl.toStr = (.ok u2, sr2)) :
    g.iteration pl pr sl sr =
      (.ok (match dl, dr with
            | .cooperate, .cooperate => (g.both_cooperate, g.both_cooperate)
            | .cooperate, .defect => (0, g.betrayer_reward)
            | .defect, .cooperate => (g.betrayer_reward, 0)
            | .defect, .defect => (g.both_defects, g.both_defects)),
       sl2, sr2) := by
  have hd1 : Dilemma.mediatorDecision pl sl = (.ok dl, sl1) := by
    simp [Dilemma.mediatorDecision, h1, h2]
  have hd2 : Dilemma.mediatorDecision pr sr = (.ok dr, sr1) := by
    simp [Dilemma.mediatorDecision, h3, h4]
  cases dl <;> cases dr <;>
    simp [Dilemma.PrisonerDilemma.iteration, hd1, hd2, Dilemma.mediatorNotify,
      h5, h6]

/-- Witness for C1 at a concrete input: a defecting left actor against a
cooperating right actor with payoffs `(1, 10, 5)` scores `(10, 0)`. -/
theorem dilemma_iteration_payoff_matrix_witness :
    Dilemma.PrisonerDilemma.iteration ⟨1, 10, 5⟩ (constPlayer "DEFECT")
      (constPlayer "COOPERATE") () () = (.ok (10, 0), (), ()) :=
  dilemma_iteration_payoff_matrix ⟨1, 10, 5⟩ (constPlayer "DEFECT")
    (constPlayer "COOPERATE") () () "DEFECT" "COOPERATE" .defect .cooperate
    () () () () () () rfl rfl rfl rfl rfl rfl

/-- C5: a line that is not one of the two recognized decision literals makes
the iteration fail with an `InvalidInput` error attributed to the side that
sent it; the failure is never attributed to the other side, and when the left
line is invalid the right actor is left untouched (its state is returned
unchanged). -/
theorem dilemma_invalid_line_attribution {σ τ : Type}
    (g : Dilemma.PrisonerDilemma) (pl : Player σ) (pr : Player τ)
    (sl : σ) (sr : τ) (s : String)
    (hc : s ≠ "COOPERATE") (hd : s ≠ "DEFECT") :
    (∀ sl1, pl.ask sl = (.ok s, sl1) →
        g.iteration pl pr sl sr =
          (.error (.errorLeft ⟨.invalidInput, .unknownDecision s⟩), sl1, sr))
    ∧ (∀ t dl sl1 sr1, pl.ask sl = (.ok t, sl1) →
        Dilemma.Decision.fromStr t = .ok dl → pr.ask sr = (.ok s, sr1) →
        g.iteration pl pr sl sr =
          (.error (.errorRight ⟨.invalidInput, .unknownDecision s⟩),
           sl1, sr1)) := by
  have hfrom : Dilemma.Decision.fromStr s =
      .error ⟨.invalidInput, .unknownDecision s⟩ := by
    simp [Dilemma.Decision.fromStr, hc, hd]
  constructor
  · intro sl1 hask
    have hdec : Dilemma.mediatorDecision pl sl =
        (.error ⟨.invalidInput, .unknownDecision s⟩, sl1) := by
      simp [Dilemma.mediatorDecision, hask, hfrom]
    simp [Dilemma.PrisonerDilemma.iteration, hdec]
  · intro t dl sl1 sr1 hask ht hask2
    have hd1 : Dilemma.mediatorDecision pl sl = (.ok dl, sl1) := by
      simp [Dilemma.mediatorDecision, hask, ht]
    have hd2 : Dilemma.mediatorDecision pr sr =
        (.error ⟨.invalidInput, .unknownDecision s⟩, sr1) := by
      simp [Dilemma.mediatorDecision, hask2, hfrom]
    simp [Dilemma.PrisonerDilemma.iteration, hd1, hd2]

/-- Witness for C5 at a concrete input: a left actor answering `Sth` (the
repository's own test input) makes the iteration fail left-attributed. -/
theorem dilemma_invalid_line_attribution_witness :
    Dilemma.PrisonerDilemma.iteration ⟨1, 10, 5⟩ (constPlayer "Sth")
      (constPlayer "DEFECT") () () =
      (.error (.errorLeft ⟨.invalidInput, .unknownDecision "Sth"⟩), (), ()) :=
  (dilemma_invalid_line_attribution ⟨1, 10, 5⟩ (constPlayer "Sth")
    (constPlayer "DEFECT") () () "Sth" (by decide) (by decide)).1 () rfl

/-- C4: in Tug of War, a spend that is at most the side's remaining energy
decrements exactly that energy; a spend exceeding the remaining energy fails
with an `InvalidInput` (protocol violation) error, and the iteration
attributes a pull failure to the side that pulled (left pull failure is
`ErrorLeft` and leaves the right mediator untouched; right pull failure is
`ErrorRight`). -/
theorem tug_energy_accounting {σ τ : Type} (g : Tug.TugOfWar)
    (pl : Player σ) (pr : Player τ) :
    (∀ (s : σ) s' line spent energy, pl.ask s = (.ok line, s') →
        Tug.parseU32 line = some spent → spent ≤ energy →
        Tug.mediatorPull pl s energy = (.ok spent, s', energy - spent))
    ∧ (∀ (s : σ) s' line spent energy, pl.ask s = (.ok line, s') →
        Tug.parseU32 line = some spent → energy < spent →
        Tug.mediatorPull pl s energy =
          (.error ⟨.invalidInput, .overspend spent energy⟩, s', energy))
    ∧ (∀ sl sr e sx ex, Tug.mediatorPull pl sl.1 sl.2 = (.error e, sx, ex) →
        g.iteration pl pr sl sr = (.error (.errorLeft e), (sx, ex), sr))
    ∧ (∀ sl sr lSpent sl1 el1 e sx ex,
        Tug.mediatorPull pl sl.1 sl.2 = (.ok lSpent, sl1, el1) →
        Tug.mediatorPull pr sr.1 sr.2 = (.error e, sx, ex) →
        g.iteration pl pr sl sr =
          (.error (.errorRight e), (sl1, el1), (sx, ex))) := by
  refine ⟨?_, ?_, ?_, ?_⟩
  · intro s s' line spent energy hask hparse hle
    simp [Tug.mediatorPull, hask, hparse, Nat.not_lt.mpr hle]
  · intro s s' line spent energy hask hparse hlt
    simp [Tug.mediatorPull, hask, hparse, hlt]
  · intro sl sr e sx ex hpull
    simp [Tug.TugOfWar.iteration, hpull]
  · intro sl sr lSpent sl1 el1 e sx ex hpl hpr
    simp [Tug.TugOfWar.iteration, hpl, hpr]

/-- Witness for C4 at concrete inputs: with 3 energy, spending 2 succeeds and
leaves 1; spending 5 is rejected as overspend; an overspending left actor
makes the iteration fail left-attributed with the right mediator untouched. -/
theorem tug_energy_accounting_witness :
    Tug.mediatorPull (constPlayer "2") () 3 = (.ok 2, (), 1)
    ∧ Tug.mediatorPull (constPlayer "5") () 3 =
        (.error ⟨.invalidInput, .overspend 5 3⟩, (), 3)
    ∧ Tug.TugOfWar.iteration ⟨3⟩ (constPlayer "5") (constPlayer "2")
        ((), 3) ((), 3) =
        (.error (.errorLeft ⟨.invalidInput, .overspend 5 3⟩),
         ((), 3), ((), 3)) :=
  ⟨(tug_energy_accounting ⟨3⟩ (constPlayer "2") (constPlayer "2")).1
      () () "2" 2 3 rfl rfl (by decide),
   (tug_energy_accounting ⟨3⟩ (constPlayer "5") (constPlayer "2")).2.1
      () () "5" 5 3 rfl rfl (by decide),
   (tug_energy_accounting ⟨3⟩ (constPlayer "5") (constPlayer "2")).2.2.1
      ((), 3) ((), 3) ⟨.invalidInput, .overspend 5 3⟩ () 3 rfl⟩

/-- C7: each side's remaining energy (a `u32`, hence never negative) is
decremented only by that side's own validated spend (`spent <= energy` is
checked before the subtraction), never increases across pulls, iterations, or
the whole round loop, and the two pools are independent: the left output
energy of an iteration is always the output of the left mediator's own pull,
and the right output energy is the output of the right mediator's own pull or
the untouched input state. -/
theorem tug_energy_invariant {σ τ : Type} (g : Tug.TugOfWar)
    (pl : Player σ) (pr : Player τ) :
    (∀ (s : σ) energy spent s' energy',
        Tug.mediatorPull pl s energy = (.ok spent, s', energy') →
        spent ≤ energy ∧ energy' = energy - spent)
    ∧ (∀ (s : σ) energy, (Tug.mediatorPull pl s energy).2.2 ≤ energy)
    ∧ (∀ sl sr, (g.iteration pl pr sl sr).2.1.2 ≤ sl.2 ∧
        (g.iteration pl pr sl sr).2.2.2 ≤ sr.2)
    ∧ (∀ n acc sl sr, (g.roundLoop pl pr n acc sl sr).2.1.2 ≤ sl.2 ∧
        (g.roundLoop pl pr n acc sl sr).2.2.2 ≤ sr.2)
    ∧ (∀ sl sr, (∃ rl s1, Tug.mediatorPull pl sl.1 sl.2 =
          (rl, s1, (g.iteration pl pr sl sr).2.1.2))
        ∧ ((∃ rr s1, Tug.mediatorPull pr sr.1 sr.2 =
            (rr, s1, (g.iteration pl pr sl sr).2.2.2))
          ∨ (g.iteration pl pr sl sr).2.2 = sr)) := by
  have hpullmono : ∀ {υ : Type} (p : Player υ) (s : υ) (energy : Nat),
      (Tug.mediatorPull p s energy).2.2 ≤ energy := by
    intro υ p s energy
    unfold Tug.mediatorPull
    split
    · simp
    · split
      · simp
      · split
        · simp
        · simp
  have hiter : ∀ (sl : σ × Tug.Energy) (sr : τ × Tug.Energy),
      (g.iteration pl pr sl sr).2.1.2 ≤ sl.2 ∧
      (g.iteration pl pr sl sr).2.2.2 ≤ sr.2 := by
    intro sl sr
    have hl := hpullmono pl sl.1 sl.2
    have hr := hpullmono pr sr.1 sr.2
    unfold Tug.TugOfWar.iteration
    split
    · rename_i e s' e' heq
      rw [heq] at hl
      exact ⟨hl, le_refl _⟩
    · rename_i lS sl1 el1 heq
      rw [heq] at hl
      split
      · rename_i e s' e' heq2
        rw [heq2] at hr
        exact ⟨hl, hr⟩
      · rename_i rS sr1 er1 heq2
        rw [heq2] at hr
        split
        · exact ⟨hl, hr⟩
        · split
          · exact ⟨hl, hr⟩
          · exact ⟨hl, hr⟩
  refine ⟨?_, hpullmono pl, hiter, ?_, ?_⟩
  · intro s energy spent s' energy' h
    unfold Tug.mediatorPull at h
    split at h
    · exact absurd h (by simp)
    · rename_i line st heq
      split at h
      · exact absurd h (by simp)
      · rename_i spent0 hparse
        split at h
        · exact absurd h (by simp)
        · rename_i hnot
          simp only [Prod.mk.injEq, Except.ok.injEq] at h
          obtain ⟨h1, h2, h3⟩ := h
          subst h1
          exact ⟨Nat.not_lt.mp hnot, h3.symm⟩
  · intro n
    induction n with
    | zero => intro acc sl sr; simp [Tug.TugOfWar.roundLoop]
    | succ n ih =>
      intro acc sl sr
      have hi := hiter sl sr
      unfold Tug.TugOfWar.roundLoop
      split
      · rename_i e sl' sr' heq
        rw [heq] at hi
        exact hi
      · rename_i res sl' sr' heq
        rw [heq] at hi
        exact ⟨le_trans (ih _ sl' sr').1 hi.1, le_trans (ih _ sl' sr').2 hi.2⟩
  · intro sl sr
    unfold Tug.TugOfWar.iteration
    split
    · rename_i e s' e' heq
      exact ⟨⟨.error e, s', heq⟩, Or.inr rfl⟩
    · rename_i lS sl1 el1 heq
      split
      · rename_i e s' e' heq2
        exact ⟨⟨.ok lS, sl1, heq⟩, Or.inl ⟨.error e, s', heq2⟩⟩
      · rename_i rS sr1 er1 heq2
        split
        · exact ⟨⟨.ok lS, sl1, heq⟩, Or.inl ⟨.ok rS, sr1, heq2⟩⟩
        · split
          · exact ⟨⟨.ok lS, sl1, heq⟩, Or.inl ⟨.ok rS, sr1, heq2⟩⟩
          · exact ⟨⟨.ok lS, sl1, heq⟩, Or.inl ⟨.ok rS, sr1, heq2⟩⟩

/-- Witness for C7 at a concrete input: a validated spend of 2 out of 3
satisfies the bound and leaves exactly 1. -/
theorem tug_energy_invariant_witness : 2 ≤ 3 ∧ 1 = 3 - 2 :=
  (tug_energy_invariant ⟨3⟩ (constPlayer "2") (constPlayer "2")).1
    () 3 2 () 1 rfl

/-- C9: once a failure occurs, the round stops immediately and returns that
first failure tagged with the side that caused it, and no score accompanies it
(an `Except.error` carries no score by construction).  Concretely, for both
games: a left-side failure in an iteration leaves the right actor untouched
(no `ask`/`say` reaches it — its state is returned unchanged); a right-side
failure happens after exactly one left `ask` (the left state is the
post-decision state, no notify was sent); and a failing round loop gives the
identical failure and identical final actor states no matter how many more
iterations were requested. -/
theorem failure_stops_round {σ τ : Type} (gd : Dilemma.PrisonerDilemma)
    (gt : Tug.TugOfWar) (pl : Player σ) (pr : Player τ) :
    (∀ sl sr e sl1, Dilemma.mediatorDecision pl sl = (.error e, sl1) →
        gd.iteration pl pr sl sr = (.error (.errorLeft e), sl1, sr))
    ∧ (∀ sl sr dl sl1 e sr1,
        Dilemma.mediatorDecision pl sl = (.ok dl, sl1) →
        Dilemma.mediatorDecision pr sr = (.error e, sr1) →
        gd.iteration pl pr sl sr = (.error (.errorRight e), sl1, sr1))
    ∧ (∀ n m acc sl sr e sl' sr',
        gd.roundLoop pl pr n acc sl sr = (.error e, sl', sr') →
        gd.roundLoop pl pr (n + m) acc sl sr = (.error e, sl', sr'))
    ∧ (∀ sl sr e sx ex, Tug.mediatorPull pl sl.1 sl.2 = (.error e, sx, ex) →
        gt.iteration pl pr sl sr = (.error (.errorLeft e), (sx, ex), sr))
    ∧ (∀ sl sr lSpent sl1 el1 e sx ex,
        Tug.mediatorPull pl sl.1 sl.2 = (.ok lSpent, sl1, el1) →
        Tug.mediatorPull pr sr.1 sr.2 = (.error e, sx, ex) →
        gt.iteration pl pr sl sr =
          (.error (.errorRight e), (sl1, el1), (sx, ex)))
    ∧ (∀ n m acc sl sr e sl' sr',
        gt.roundLoop pl pr n acc sl sr = (.error e, sl', sr') →
        gt.roundLoop pl pr (n + m) acc sl sr = (.error e, sl', sr')) := by
  refine ⟨?_, ?_, ?_, ?_, ?_, ?_⟩
  · intro sl sr e sl1 h
    simp [Dilemma.PrisonerDilemma.iteration, h]
  · intro sl sr dl sl1 e sr1 h1 h2
    simp [Dilemma.PrisonerDilemma.iteration, h1, h2]
  · intro n m
    induction n with
    | zero =>
      intro acc sl sr e sl' sr' h
      simp [Dilemma.PrisonerDilemma.roundLoop] at h
    | succ n ih =>
      intro acc sl sr e sl' sr' h
      have hm : n + 1 + m = n + m + 1 := by omega
      rw [hm]
      rcases hit : gd.iteration pl pr sl sr with ⟨res, sl2, sr2⟩
      cases res with
      | error e2 =>
        rw [Dilemma.PrisonerDilemma.roundLoop, hit] at h ⊢
        exact h
      | ok v =>
        rw [Dilemma.PrisonerDilemma.roundLoop, hit] at h ⊢
        exact ih _ _ _ e sl' sr' h
  · intro sl sr e sx ex h
    simp [Tug.TugOfWar.iteration, h]
  · intro sl sr lSpent sl1 el1 e sx ex h1 h2
    simp [Tug.TugOfWar.iteration, h1, h2]
  · intro n m
    induction n with
    | zero =>
      intro acc sl sr e sl' sr' h
      simp [Tug.TugOfWar.roundLoop] at h
    | succ n ih =>
      intro acc sl sr e sl' sr' h
      have hm : n + 1 + m = n + m + 1 := by omega
      rw [hm]
      rcases hit : gt.iteration pl pr sl sr with ⟨res, sl2, sr2⟩
      cases res with
      | error e2 =>
        rw [Tug.TugOfWar.roundLoop, hit] at h ⊢
        exact h
      | ok v =>
        rw [Tug.TugOfWar.roundLoop, hit] at h ⊢
        exact ih _ _ _ e sl' sr' h

/-- Witness for C9 at a concrete input: with a silent left actor, the dilemma
round loop fails left-attributed with a timeout after one requested iteration,
and requesting two more iterations returns the identical failure and states. -/
theorem failure_stops_round_witness :
    Dilemma.PrisonerDilemma.roundLoop ⟨1, 10, 5⟩ silentPlayer
      (constPlayer "DEFECT") (1 + 2) (0, 0) () () =
      (.error (.errorLeft ⟨.timedOut, .sysMsg "timed out"⟩), (), ()) :=
  (failure_stops_round ⟨1, 10, 5⟩ ⟨3⟩ silentPlayer (constPlayer "DEFECT")).2.2.1
    1 2 (0, 0) () () (.errorLeft ⟨.timedOut, .sysMsg "timed out"⟩) () () rfl

/-- C10: a round invoked with an iteration count of 0 whose setup `say`s
succeed sends only the setup lines, issues no `ask`, and returns `Ok((0, 0))`:
the final actor states are exactly the post-setup states. -/
theorem zero_iterations_round {σ τ : Type} (gd : Dilemma.PrisonerDilemma)
    (gt : Tug.TugOfWar) (pl : Player σ) (pr : Player τ) :
    (∀ sl sr u v sl1 sr1,
        pl.say sl (Nat.repr 0) = (.ok u, sl1) →
        pr.say sr (Nat.repr 0) = (.ok v, sr1) →
        gd.round pl pr 0 sl sr = (.ok (0, 0), sl1, sr1))
    ∧ (∀ sl sr u1 u2 v1 v2 sla sl1 sra sr1,
        pl.say sl (Nat.repr gt.energy) = (.ok u1, sla) →
        pl.say sla (Nat.repr 0) = (.ok u2, sl1) →
        pr.say sr (Nat.repr gt.energy) = (.ok v1, sra) →
        pr.say sra (Nat.repr 0) = (.ok v2, sr1) →
        gt.round pl pr 0 sl sr =
          (.ok (0, 0), (sl1, gt.energy), (sr1, gt.energy))) := by
  constructor
  · intro sl sr u v sl1 sr1 h1 h2
    simp [Dilemma.PrisonerDilemma.round, Dilemma.mediatorInitial, h1, h2,
      Dilemma.PrisonerDilemma.roundLoop]
  · intro sl sr u1 u2 v1 v2 sla sl1 sra sr1 h1 h2 h3 h4
    simp [Tug.TugOfWar.round, Tug.mediatorInitial, h1, h2, h3, h4,
      Tug.TugOfWar.roundLoop]

/-- Witness for C10 with concrete in-memory actors: both games return
`(0, 0)` on a zero-iteration round. -/
theorem zero_iterations_round_witness :
    Dilemma.PrisonerDilemma.round ⟨1, 10, 5⟩ (constPlayer "DEFECT")
      (constPlayer "DEFECT") 0 () () = (.ok (0, 0), (), ())
    ∧ Tug.TugOfWar.round ⟨7⟩ (constPlayer "2") (constPlayer "2") 0 () () =
      (.ok (0, 0), ((), 7), ((), 7)) :=
  ⟨(zero_iterations_round ⟨1, 10, 5⟩ ⟨7⟩ (constPlayer "DEFECT")
      (constPlayer "DEFECT")).1 () () () () () () rfl rfl,
   (zero_iterations_round ⟨1, 10, 5⟩ ⟨7⟩ (constPlayer "2")
      (constPlayer "2")).2 () () () () () () () () () ()
      rfl rfl rfl rfl⟩

/-- The dilemma accumulation loop computes exactly the componentwise sum of
the per-iteration scores (same iterations, same state threading). -/
lemma dilemma_roundLoop_eq_iterScores {σ τ : Type}
    (g : Dilemma.PrisonerDilemma) (pl : Player σ) (pr : Player τ) :
    ∀ (n : Nat) (acc : Score × Score) (sl : σ) (sr : τ),
      g.roundLoop pl pr n acc sl sr =
        (match g.iterScores pl pr n sl sr with
         | (.ok l, sl', sr') =>
             (.ok (acc.1 + (sumScores l).1, acc.2 + (sumScores l).2), sl', sr')
         | (.error e, sl', sr') => (.error e, sl', sr')) := by
  intro n
  induction n with
  | zero =>
    intro acc sl sr
    simp [Dilemma.PrisonerDilemma.roundLoop, Dilemma.PrisonerDilemma.iterScores,
      sumScores]
  | succ n ih =>
    intro acc sl sr
    rcases hit : g.iteration pl pr sl sr with ⟨res, sl2, sr2⟩
    cases res with
    | error e =>
      simp [Dilemma.PrisonerDilemma.roundLoop,
        Dilemma.PrisonerDilemma.iterScores, hit]
    | ok v =>
      simp only [Dilemma.PrisonerDilemma.roundLoop,
        Dilemma.PrisonerDilemma.iterScores, hit]
      rw [ih]
      rcases his : g.iterScores pl pr n sl2 sr2 with ⟨resl, sl3, sr3⟩
      cases resl with
      | error e => simp
      | ok l =>
        simp only [sumScores, List.foldr_cons]
        refine congrArg (fun z => (Except.ok z, sl3, sr3)) ?_
        refine Prod.ext ?_ ?_ <;> simp [sumScores] <;> ring

/-- The tug-of-war accumulation loop computes exactly the componentwise sum of
the per-iteration scores. -/
lemma tug_roundLoop_eq_iterScores {σ τ : Type}
    (g : Tug.TugOfWar) (pl : Player σ) (pr : Player τ) :
    ∀ (n : Nat) (acc : Score × Score) (sl : σ × Tug.Energy)
      (sr : τ × Tug.Energy),
      g.roundLoop pl pr n acc sl sr =
        (match g.iterScores pl pr n sl sr with
         | (.ok l, sl', sr') =>
             (.ok (acc.1 + (sumScores l).1, acc.2 + (sumScores l).2), sl', sr')
         | (.error e, sl', sr') => (.error e, sl', sr')) := by
  intro n
  induction n with
  | zero =>
    intro acc sl sr
    simp [Tug.TugOfWar.roundLoop, Tug.TugOfWar.iterScores, sumScores]
  | succ n ih =>
    intro acc sl sr
    rcases hit : g.iteration pl pr sl sr with ⟨res, sl2, sr2⟩
    cases res with
    | error e =>
      simp [Tug.TugOfWar.roundLoop, Tug.TugOfWar.iterScores, hit]
    | ok v =>
      simp only [Tug.TugOfWar.roundLoop, Tug.TugOfWar.iterScores, hit]
      rw [ih]
      rcases his : g.iterScores pl pr n sl2 sr2 with ⟨resl, sl3, sr3⟩
      cases resl with
      | error e => simp
      | ok l =>
        simp only [sumScores, List.foldr_cons]
        refine congrArg (fun z => (Except.ok z, sl3, sr3)) ?_
        refine Prod.ext ?_ ?_ <;> simp [sumScores] <;> ring

/-- A successful run of `iterScores` produces exactly one score pair per
requested iteration. -/
lemma dilemma_iterScores_length {σ τ : Type}
    (g : Dilemma.PrisonerDilemma) (pl : Player σ) (pr : Player τ) :
    ∀ (n : Nat) (sl : σ) (sr : τ) l sl' sr',
      g.iterScores pl pr n sl sr = (.ok l, sl', sr') → l.length = n := by
  intro n
  induction n with
  | zero =>
    intro sl sr l sl' sr' h
    simp only [Dilemma.PrisonerDilemma.iterScores, Prod.mk.injEq,
      Except.ok.injEq] at h
    rw [← h.1]
    rfl
  | succ n ih =>
    intro sl sr l sl' sr' h
    rcases hit : g.iteration pl pr sl sr with ⟨res, sl2, sr2⟩
    rw [Dilemma.PrisonerDilemma.iterScores, hit] at h
    cases res with
    | error e => simp at h
    | ok v =>
      rcases his : g.iterScores pl pr n sl2 sr2 with ⟨resl, sl3, sr3⟩
      simp only [his] at h
      cases resl with
      | error e => simp at h
      | ok l0 =>
        simp only [Prod.mk.injEq, Except.ok.injEq] at h
        rw [← h.1]
        simp [ih sl2 sr2 l0 sl3 sr3 (by rw [his])]

/-- A successful run of the tug-of-war `iterScores` produces exactly one score
pair per requested iteration. -/
lemma tug_iterScores_length {σ τ : Type}
    (g : Tug.TugOfWar) (pl : Player σ) (pr : Player τ) :
    ∀ (n : Nat) (sl : σ × Tug.Energy) (sr : τ × Tug.Energy) l sl' sr',
      g.iterScores pl pr n sl sr = (.ok l, sl', sr') → l.length = n := by
  intro n
  induction n with
  | zero =>
    intro sl sr l sl' sr' h
    simp only [Tug.TugOfWar.iterScores, Prod.mk.injEq, Except.ok.injEq] at h
    rw [← h.1]
    rfl
  | succ n ih =>
    intro sl sr l sl' sr' h
    rcases hit : g.iteration pl pr sl sr with ⟨res, sl2, sr2⟩
    rw [Tug.TugOfWar.iterScores, hit] at h
    cases res with
    | error e => simp at h
    | ok v =>
      rcases his : g.iterScores pl pr n sl2 sr2 with ⟨resl, sl3, sr3⟩
      simp only [his] at h
      cases resl with
      | error e => simp at h
      | ok l0 =>
        simp only [Prod.mk.injEq, Except.ok.injEq] at h
        rw [← h.1]
        simp [ih sl2 sr2 l0 sl3 sr3 (by rw [his])]

/-- C6: for both games, a successfully completed round's final score pair is
the componentwise sum of the `n` per-iteration score pairs of that same run
(one pair per iteration — no drift, no double counting).  The existentially
quantified states are the post-setup actor states of the run. -/
theorem round_total_is_sum_of_iteration_scores {σ τ : Type}
    (gd : Dilemma.PrisonerDilemma) (gt : Tug.TugOfWar)
    (pl : Player σ) (pr : Player τ) :
    (∀ n sl sr tot sl' sr', gd.round pl pr n sl sr = (.ok tot, sl', sr') →
        ∃ sl1 sr1 l, gd.iterScores pl pr n sl1 sr1 = (.ok l, sl', sr') ∧
          l.length = n ∧ tot = sumScores l)
    ∧ (∀ n sl sr tot sl' sr', gt.round pl pr n sl sr = (.ok tot, sl', sr') →
        ∃ sl1 sr1 l, gt.iterScores pl pr n sl1 sr1 = (.ok l, sl', sr') ∧
          l.length = n ∧ tot = sumScores l) := by
  constructor
  · intro n sl sr tot sl' sr' h
    unfold Dilemma.PrisonerDilemma.round at h
    split at h
    · simp at h
    · rename_i u sl1 heq1
      split at h
      · simp at h
      · rename_i v sr1 heq2
        rw [dilemma_roundLoop_eq_iterScores] at h
        rcases his : gd.iterScores pl pr n sl1 sr1 with ⟨resl, sl3, sr3⟩
        rw [his] at h
        cases resl with
        | error e => simp at h
        | ok l =>
          simp only [Prod.mk.injEq, Except.ok.injEq] at h
          obtain ⟨h1, h2, h3⟩ := h
          refine ⟨sl1, sr1, l, by rw [his, h2, h3], ?_, ?_⟩
          · exact dilemma_iterScores_length gd pl pr n sl1 sr1 l sl3 sr3
              (by rw [his])
          · rw [← h1]
            exact Prod.ext (by simp) (by simp)
  · intro n sl sr tot sl' sr' h
    unfold Tug.TugOfWar.round at h
    split at h
    · simp at h
    · rename_i u sl1 heq1
      split at h
      · simp at h
      · rename_i v sr1 heq2
        rw [tug_roundLoop_eq_iterScores] at h
        rcases his : gt.iterScores pl pr n (sl1, gt.energy) (sr1, gt.energy)
          with ⟨resl, sl3, sr3⟩
        rw [his] at h
        cases resl with
        | error e => simp at h
        | ok l =>
          simp only [Prod.mk.injEq, Except.ok.injEq] at h
          obtain ⟨h1, h2, h3⟩ := h
          refine ⟨(sl1, gt.energy), (sr1, gt.energy), l,
            by rw [his, h2, h3], ?_, ?_⟩
          · exact tug_iterScores_length gt pl pr n (sl1, gt.energy)
              (sr1, gt.energy) l sl3 sr3 (by rw [his])
          · rw [← h1]
            exact Prod.ext (by simp) (by simp)

/-- Witness for C6 at a concrete input: two always-defecting actors over two
iterations with payoffs `(1, 10, 5)` total `(2, 2)`, which is the sum of the
two per-iteration `(1, 1)` scores. -/
theorem round_total_is_sum_of_iteration_scores_witness :
    ∃ sl1 sr1 l,
      Dilemma.PrisonerDilemma.iterScores ⟨1, 10, 5⟩ (constPlayer "DEFECT")
        (constPlayer "DEFECT") 2 sl1 sr1 = (.ok l, (), ()) ∧
      l.length = 2 ∧ ((2, 2) : Score × Score) = sumScores l :=
  (round_total_is_sum_of_iteration_scores ⟨1, 10, 5⟩ ⟨7⟩
    (constPlayer "DEFECT") (constPlayer "DEFECT")).1 2 () () (2, 2) () () rfl

/-- Splitting a line off a buffer whose first newline terminates `pre`. -/
lemma splitLine_append (pre rest : List Char) (h : '\n' ∉ pre) :
    Channel.splitLine (pre ++ '\n' :: rest) = some (pre ++ ['\n'], rest) := by
  induction pre with
  | nil => simp [Channel.splitLine]
  | cons c cs ih =>
    have hc : c ≠ '\n' := by
      intro hc
      exact h (by simp [hc])
    have hcs : '\n' ∉ cs := fun hmem => h (List.mem_cons_of_mem _ hmem)
    simp [Channel.splitLine, hc, ih hcs]

/-- Trimming trailing whitespace absorbs the terminating newline. -/
lemma rustTrimEnd_newline (pre : List Char) :
    Channel.rustTrimEnd (pre ++ ['\n']) = Channel.rustTrimEnd pre := by
  unfold Channel.rustTrimEnd
  rw [List.reverse_append]
  have hws : Channel.rustIsWhitespace '\n' = true := by decide
  simp [List.dropWhile, hws]

/-- C2, counterexample: an actor whose output stream is already closed
(end-of-stream with nothing buffered) makes `ask` return successfully with
the empty string — it does not fail, and no `UnexpectedEofError` exists in
the code (`read_line` reports end-of-stream as `Ok(0)` and `ask` maps any
`Ok` to a trimmed string). -/
theorem ask_eof_cex : Channel.ask ⟨[], .eof⟩ = (.ok "", ⟨[], .eof⟩) := rfl

/-- C2, amended: when the child's output reaches end-of-stream before a
newline arrives, `ask` returns `Ok` with the whitespace-trimmed partial
content read so far (the empty string when the child closed immediately);
the malformed content is only rejected later by the game-layer parsers. -/
theorem ask_eof_returns_partial (buf : List Char)
    (h : Channel.splitLine buf = none) :
    Channel.ask ⟨buf, .eof⟩ =
      (.ok (Channel.rustTrimEnd buf).asString, ⟨[], .eof⟩) := by
  simp [Channel.ask, Channel.readLine, h]

/-- Witness for the amended C2 at a concrete input: a child that wrote `HI`
and closed its stream yields `Ok "HI"`. -/
theorem ask_eof_returns_partial_witness :
    Channel.ask ⟨['H', 'I'], .eof⟩ = (.ok "HI", ⟨[], .eof⟩) :=
  ask_eof_returns_partial ['H', 'I'] rfl

/-- C8, counterexample: `ask` uses `trim_end`, which strips every trailing
whitespace character, not only the newline: a child line `A \n` comes back as
`A`, not `A ` as the claim requires. -/
theorem ask_strips_more_than_newline :
    Channel.ask ⟨['A', ' ', '\n'], .silent⟩ = (.ok "A", ⟨[], .silent⟩)
    ∧ "A" ≠ "A " := ⟨rfl, by decide⟩

/-- C8, amended: for every line successfully read, `ask` returns the raw line
with all trailing whitespace stripped (the trailing newline included), all
other characters preserved. -/
theorem ask_line_trims_trailing_whitespace (pre rest : List Char)
    (nd : Channel.StreamEnd) (h : '\n' ∉ pre) :
    Channel.ask ⟨pre ++ '\n' :: rest, nd⟩ =
      (.ok (Channel.rustTrimEnd pre).asString, ⟨rest, nd⟩) := by
  simp [Channel.ask, Channel.readLine, splitLine_append pre rest h,
    rustTrimEnd_newline]

/-- Witness for the amended C8 at a concrete input: the line `OK \n` comes
back as `OK` and the unread tail of the stream is preserved. -/
theorem ask_line_trims_trailing_whitespace_witness :
    Channel.ask ⟨['O', 'K', ' ', '\n', 'Z'], .silent⟩ =
      (.ok "OK", ⟨['Z'], .silent⟩) :=
  ask_line_trims_trailing_whitespace ['O', 'K', ' '] ['Z'] .silent (by decide)

/-- Renaming translates the generic variant's echo literal into the
dyn-dispatch variant's echo literal. -/
lemma renameLit_toStr (d : Dilemma.Decision) :
    renameLit (DilemmaA.Action.toStr (actionOf d)) = Dilemma.Decision.toStr d := by
  cases d <;> rfl

/-- Parsing after renaming: the generic variant's parser on the renamed line
agrees with the dyn-dispatch variant's parser on the original line (same
decision under the correspondence, and for invalid lines an error of the same
kind). -/
lemma fromStr_rename (line : String) :
    DilemmaA.Action.fromStr (renameLit line) =
      (match Dilemma.Decision.fromStr line with
       | .ok d => .ok (actionOf d)
       | .error e => .error ⟨e.kind, .unknownAction (renameLit line)⟩) := by
  by_cases hC : line = "COOPERATE"
  · subst hC; rfl
  · by_cases hD : line = "DEFECT"
    · subst hD; rfl
    · by_cases hB : line = "BETRAY"
      · subst hB; rfl
      · have h1 : renameLit line = line := by simp [renameLit, hD, hB]
        rw [h1]
        simp [DilemmaA.Action.fromStr, Dilemma.Decision.fromStr, hC, hD, hB]

/-- One iteration of the generic variant driven through the literal renaming
behaves like one iteration of the dyn-dispatch variant: same outcome (equal
scores, same attributed side and error kind) and identical actor states. -/
lemma iteration_equiv {σ τ : Type} (md d c : Score) (pl : Player σ)
    (pr : Player τ) (sl : σ) (sr : τ) :
    sameOutcome
      (DilemmaA.PrisonerDilemma.iteration ⟨md, d, c⟩ (renamePlayer pl)
        (renamePlayer pr) sl sr).1
      (Dilemma.PrisonerDilemma.iteration ⟨md, d, c⟩ pl pr sl sr).1
    ∧ (DilemmaA.PrisonerDilemma.iteration ⟨md, d, c⟩ (renamePlayer pl)
        (renamePlayer pr) sl sr).2 =
      (Dilemma.PrisonerDilemma.iteration ⟨md, d, c⟩ pl pr sl sr).2 := by
  rcases hal : pl.ask sl with ⟨resl, sl1⟩
  cases resl with
  | error e =>
    simp [DilemmaA.PrisonerDilemma.iteration, Dilemma.PrisonerDilemma.iteration,
      Dilemma.mediatorDecision, renamePlayer, hal, sameOutcome]
  | ok linel =>
    have hA := fromStr_rename linel
    cases hfl : Dilemma.Decision.fromStr linel with
    | error e =>
      rw [hfl] at hA
      simp [DilemmaA.PrisonerDilemma.iteration, Dilemma.PrisonerDilemma.iteration,
        Dilemma.mediatorDecision, renamePlayer, hal, hfl, hA, sameOutcome]
    | ok dl =>
      rw [hfl] at hA
      rcases har : pr.ask sr with ⟨resr, sr1⟩
      cases resr with
      | error e =>
        simp [DilemmaA.PrisonerDilemma.iteration,
          Dilemma.PrisonerDilemma.iteration, Dilemma.mediatorDecision,
          renamePlayer, hal, hfl, hA, har, sameOutcome]
      | ok liner =>
        have hA2 := fromStr_rename liner
        cases hfr : Dilemma.Decision.fromStr liner with
        | error e =>
          rw [hfr] at hA2
          simp [DilemmaA.PrisonerDilemma.iteration,
            Dilemma.PrisonerDilemma.iteration, Dilemma.mediatorDecision,
            renamePlayer, hal, hfl, hA, har, hfr, hA2, sameOutcome]
        | ok dr =>
          rw [hfr] at hA2
          have hnl : renameLit (DilemmaA.Action.toStr (actionOf dr)) =
              Dilemma.Decision.toStr dr := renameLit_toStr dr
          rcases hsl : pl.say sl1 (Dilemma.Decision.toStr dr) with ⟨resn, sl2⟩
          cases resn with
          | error e =>
            simp [DilemmaA.PrisonerDilemma.iteration,
              Dilemma.PrisonerDilemma.iteration, Dilemma.mediatorDecision,
              Dilemma.mediatorNotify, renamePlayer, hal, hfl, hA, har, hfr,
              hA2, hnl, hsl, sameOutcome]
          | ok u =>
            have hnr : renameLit (DilemmaA.Action.toStr (actionOf dl)) =
                Dilemma.Decision.toStr dl := renameLit_toStr dl
            rcases hsr : pr.say sr1 (Dilemma.Decision.toStr dl) with ⟨resn2, sr2⟩
            cases resn2 with
            | error e =>
              simp [DilemmaA.PrisonerDilemma.iteration,
                Dilemma.PrisonerDilemma.iteration, Dilemma.mediatorDecision,
                Dilemma.mediatorNotify, renamePlayer, hal, hfl, hA, har, hfr,
                hA2, hnl, hsl, hnr, hsr, sameOutcome]
            | ok u2 =>
              cases dl <;> cases dr <;>
                simp only [actionOf] at hnl hnr <;>
                simp [DilemmaA.PrisonerDilemma.iteration,
                  Dilemma.PrisonerDilemma.iteration, Dilemma.mediatorDecision,
                  Dilemma.mediatorNotify, renamePlayer, hal, hfl, hA, har,
                  hfr, hA2, hnl, hsl, hnr, hsr, sameOutcome, actionOf]

/-- The accumulation loops of the two variants, related through the literal
renaming, produce the same outcome and identical actor states. -/
lemma roundLoop_equiv {σ τ : Type} (md d c : Score) (pl : Player σ)
    (pr : Player τ) :
    ∀ (n : Nat) (acc : Score × Score) (sl : σ) (sr : τ),
    sameOutcome
      (DilemmaA.PrisonerDilemma.roundLoop ⟨md, d, c⟩ (renamePlayer pl)
        (renamePlayer pr) n acc sl sr).1
      (Dilemma.PrisonerDilemma.roundLoop ⟨md, d, c⟩ pl pr n acc sl sr).1
    ∧ (DilemmaA.PrisonerDilemma.roundLoop ⟨md, d, c⟩ (renamePlayer pl)
        (renamePlayer pr) n acc sl sr).2 =
      (Dilemma.PrisonerDilemma.roundLoop ⟨md, d, c⟩ pl pr n acc sl sr).2 := by
  intro n
  induction n with
  | zero =>
    intro acc sl sr
    simp [DilemmaA.PrisonerDilemma.roundLoop, Dilemma.PrisonerDilemma.roundLoop,
      sameOutcome]
  | succ n ih =>
    intro acc sl sr
    have hit := iteration_equiv md d c pl pr sl sr
    rcases ha : DilemmaA.PrisonerDilemma.iteration ⟨md, d, c⟩ (renamePlayer pl)
      (renamePlayer pr) sl sr with ⟨ra, sa⟩
    rcases hb : Dilemma.PrisonerDilemma.iteration ⟨md, d, c⟩ pl pr sl sr
      with ⟨rb, sb⟩
    rw [ha, hb] at hit
    obtain ⟨h1, h2⟩ := hit
    cases ra with
    | error ea =>
      cases rb with
      | error eb =>
        simp only [DilemmaA.PrisonerDilemma.roundLoop,
          Dilemma.PrisonerDilemma.roundLoop, ha, hb]
        exact ⟨h1, h2⟩
      | ok vb => cases ea <;> exact absurd h1 (by simp [sameOutcome])
    | ok va =>
      cases rb with
      | error eb => cases eb <;> exact absurd h1 (by simp [sameOutcome])
      | ok vb =>
        have hv : va = vb := h1
        subst hv
        cases h2
        simp only [DilemmaA.PrisonerDilemma.roundLoop,
          Dilemma.PrisonerDilemma.roundLoop, ha, hb]
        exact ih _ _ _

/-- C3, amended: the two Prisoner's Dilemma variants are not equivalent as
stated (they recognize and echo different defect literals); they are
equivalent up to that renaming: running the generic round against both actors
composed with the `BETRAY`/`DEFECT` renaming gives the same outcome (equal
score pair on success, same attributed side and same error kind on failure)
and identical actor states as the dyn-dispatch round against the original
actors, for every pair of actors and every iteration count. -/
theorem dilemma_variants_equivalent_up_to_literal {σ τ : Type}
    (md d c : Score) (pl : Player σ) (pr : Player τ) (n : Nat)
    (sl : σ) (sr : τ) :
    sameOutcome
      (DilemmaA.PrisonerDilemma.round ⟨md, d, c⟩ (renamePlayer pl)
        (renamePlayer pr) n sl sr).1
      (Dilemma.PrisonerDilemma.round ⟨md, d, c⟩ pl pr n sl sr).1
    ∧ (DilemmaA.PrisonerDilemma.round ⟨md, d, c⟩ (renamePlayer pl)
        (renamePlayer pr) n sl sr).2 =
      (Dilemma.PrisonerDilemma.round ⟨md, d, c⟩ pl pr n sl sr).2 := by
  have hrep := renameLit_repr n
  rcases hs1 : pl.say sl (Nat.repr n) with ⟨r1, sl1⟩
  cases r1 with
  | error e =>
    simp [DilemmaA.PrisonerDilemma.round, Dilemma.PrisonerDilemma.round,
      Dilemma.mediatorInitial, renamePlayer, hrep, hs1, sameOutcome]
  | ok u =>
    rcases hs2 : pr.say sr (Nat.repr n) with ⟨r2, sr1⟩
    cases r2 with
    | error e =>
      simp [DilemmaA.PrisonerDilemma.round, Dilemma.PrisonerDilemma.round,
        Dilemma.mediatorInitial, renamePlayer, hrep, hs1, hs2, sameOutcome]
    | ok v =>
      simp only [DilemmaA.PrisonerDilemma.round, Dilemma.PrisonerDilemma.round,
        Dilemma.mediatorInitial, renamePlayer, hrep, hs1, hs2]
      exact roundLoop_equiv md d c pl pr n (0, 0) sl1 sr1

/-- C3, counterexample: the two variants disagree on an actor that always
answers `DEFECT` — the generic variant (src/src/dilemma.rs) rejects the line
(it only knows `BETRAY`) and fails left-attributed, while the dyn-dispatch
variant (src/src/games/dilemma.rs) accepts it and scores `(1, 1)`. -/
theorem dilemma_variants_not_equivalent :
    (DilemmaA.PrisonerDilemma.round ⟨1, 10, 5⟩ (constPlayer "DEFECT")
        (constPlayer "DEFECT") 1 () ()).1 =
      .error (.errorLeft ⟨.invalidInput, .unknownAction "DEFECT"⟩)
    ∧ (Dilemma.PrisonerDilemma.round ⟨1, 10, 5⟩ (constPlayer "DEFECT")
        (constPlayer "DEFECT") 1 () ()).1 = .ok (1, 1) := ⟨rfl, rfl⟩

end TJudge
